import Mathlib

/-!
Shallow embedding, in Lean 4, of the deterministic weak-entropy wallet-audit
core of this repository: the engine simulators and ARC4 key extraction of
`tests/validate_parity.py`, the timestamp-hash derivation of
`scripts/generate_test_vectors_option_a.py`, the 256-bit reference transform of
`crates/temporal-planetarium-lib/src/scans/randstorm/sim_sha.py`, the
parity-validation main loop, the bloom-filter utility of
`milksad-reference/early_research_code/python-bloom-filter-util/bloom-util.py`,
and the WGSL round generator of `scripts/generate_ripemd160_wgsl.py`.

Machine integers are modelled as `Nat` with explicit masking (`&&& 0xFFFFFFFF`
and friends) exactly where the Python code masks.  Stateful Python classes
become structures with explicit state passing.  Definitions suffixed or
prefixed with `spec` restate the natural-language specification's wording and
are compared against the source-derived definitions by theorem.
-/

namespace EntropyLab

/-- State of the `V8Mwc1616` engine (tests/validate_parity.py lines 8-19):
two 32-bit registers `s1`, `s2`. -/
structure V8Mwc1616 where
  s1 : Nat
  s2 : Nat
deriving DecidableEq

/-- `V8Mwc1616.__init__`: `s1` from the low 32 bits of the seed, `s2` from the
next 32 bits, each forced to 1 when zero (zero-state guard). -/
def V8Mwc1616.init (seed : Nat) : V8Mwc1616 :=
  let s1 := seed &&& 0xFFFFFFFF
  let s2 := (seed >>> 32) &&& 0xFFFFFFFF
  { s1 := if s1 = 0 then 1 else s1,
    s2 := if s2 = 0 then 1 else s2 }

/-- `V8Mwc1616.next_u16`: one multiply-with-carry step of each register, then
the high 16 bits of the 32-bit combination `(s1 << 16) + s2`. -/
def V8Mwc1616.next_u16 (st : V8Mwc1616) : Nat × V8Mwc1616 :=
  let s1 := (18000 * (st.s1 &&& 0xFFFF) + (st.s1 >>> 16)) &&& 0xFFFFFFFF
  let s2 := (30903 * (st.s2 &&& 0xFFFF) + (st.s2 >>> 16)) &&& 0xFFFFFFFF
  let combined := ((s1 <<< 16) + s2) &&& 0xFFFFFFFF
  ((combined >>> 16) &&& 0xFFFF, { s1 := s1, s2 := s2 })

/-- State of the `JavaLcg` engine (tests/validate_parity.py lines 21-27):
one 48-bit register. -/
structure JavaLcg where
  state : Nat
deriving DecidableEq

/-- `JavaLcg.__init__`: the seed masked to 48 bits. -/
def JavaLcg.init (seed : Nat) : JavaLcg :=
  { state := seed &&& ((1 <<< 48) - 1) }

/-- `JavaLcg.next_u16`: `state = (state * 0x5DEECE66D + 0xB) mod 2^48`,
output bits 16..31. -/
def JavaLcg.next_u16 (st : JavaLcg) : Nat × JavaLcg :=
  let s := (st.state * 0x5DEECE66D + 0xB) &&& ((1 <<< 48) - 1)
  ((s >>> 16) &&& 0xFFFF, { state := s })

/-- State of the `SafariCrt` engine (tests/validate_parity.py lines 29-41):
one 32-bit register. -/
structure SafariCrt where
  state : Nat
deriving DecidableEq

/-- `SafariCrt.__init__`: the seed masked to 32 bits. -/
def SafariCrt.init (seed : Nat) : SafariCrt :=
  { state := seed &&& 0xFFFFFFFF }

/-- `SafariCrt.next_u16`: two successive `state*214013 + 2531011` steps, each
yielding 15 bits after the multiply; the two results are concatenated to 30
bits and bits 14..29 of the concatenation form the output. -/
def SafariCrt.next_u16 (st : SafariCrt) : Nat × SafariCrt :=
  let st1 := (st.state * 214013 + 2531011) &&& 0xFFFFFFFF
  let r1 := (st1 >>> 16) &&& 0x7FFF
  let st2 := (st1 * 214013 + 2531011) &&& 0xFFFFFFFF
  let r2 := (st2 >>> 16) &&& 0x7FFF
  let combined := (r1 <<< 15) ||| r2
  ((combined >>> 14) &&& 0xFFFF, { state := st2 })

/-- The pool-filling `while len(pool) < 256` loop of `derive_privkey_python`,
generic over the engine: `need` counts the bytes still missing.  Each
iteration appends the high byte of one 16-bit draw and, when the pool is still
short of the target, its low byte. -/
def fillPool {σ : Type} (next : σ → Nat × σ) : σ → Nat → List Nat
  | _, 0 => []
  | st, 1 => [((next st).1 >>> 8) &&& 0xFF]
  | st, need + 2 =>
    let p := next st
    ((p.1 >>> 8) &&& 0xFF) :: (p.1 &&& 0xFF) :: fillPool next p.2 need

/-- Python's simultaneous swap `s[i], s[j] = s[j], s[i]` on a list. -/
def listSwap (l : List Nat) (i j : Nat) : List Nat :=
  (l.set i (l.getD j 0)).set j (l.getD i 0)

/-- ARC4 cipher state (tests/validate_parity.py lines 45-59): the 256-entry
table and the two indices. -/
structure ARC4 where
  s : List Nat
  i : Nat
  j : Nat
deriving DecidableEq

/-- One iteration of the ARC4 key-scheduling loop:
`j = (j + s[i] + key[i % len(key)]) % 256` followed by the swap. -/
def arc4KsaStep (key : List Nat) (acc : List Nat × Nat) (i : Nat) :
    List Nat × Nat :=
  let j := (acc.2 + acc.1.getD i 0 + key.getD (i % key.length) 0) % 256
  (listSwap acc.1 i j, j)

/-- `ARC4.__init__`: identity table `list(range(256))`, then the 256-iteration
key-scheduling loop, leaving `i = j = 0`. -/
def ARC4.init (key : List Nat) : ARC4 :=
  let p := (List.range 256).foldl (arc4KsaStep key) (List.range 256, 0)
  { s := p.1, i := 0, j := 0 }

/-- `ARC4.next_byte`: the lagged-swap keystream step. -/
def ARC4.next_byte (st : ARC4) : Nat × ARC4 :=
  let i := (st.i + 1) % 256
  let j := (st.j + st.s.getD i 0) % 256
  let s := listSwap st.s i j
  (s.getD ((s.getD i 0 + s.getD j 0) % 256) 0, { s := s, i := i, j := j })

/-- The 4-entry list `ts_bytes` of `derive_privkey_python`: the low four bytes
of the timestamp, least significant first, via shifts and masks. -/
def tsBytes (ts : Nat) : List Nat :=
  [ts &&& 0xFF, (ts >>> 8) &&& 0xFF, (ts >>> 16) &&& 0xFF, (ts >>> 24) &&& 0xFF]

/-- The whitening loop `for i in range(4): pool[i] ^= ts_bytes[i]`. -/
def whitenLoop (ts : Nat) (pool : List Nat) : List Nat :=
  (List.range 4).foldl
    (fun p i => p.set i (p.getD i 0 ^^^ (tsBytes ts).getD i 0)) pool

/-- The list comprehension `[arc4.next_byte() for _ in range(32)]` (with `n`
in place of 32): a loop appending one keystream byte per iteration. -/
def keystreamFold (st : ARC4) (n : Nat) : List Nat :=
  ((List.range n).foldl
    (fun acc _ => ((acc.1 ++ [acc.2.next_byte.1] : List Nat), acc.2.next_byte.2))
    (([] : List Nat), st)).1

/-- `derive_privkey_python` (tests/validate_parity.py lines 63-104): fill a
256-byte pool from the engine selected by `engine_type`, XOR the first four
pool bytes with the little-endian timestamp bytes, and emit 32 ARC4 keystream
bytes; an unsupported engine string yields `none`. -/
def derive_privkey_python (ts : Nat) (engine_type : String) :
    Option (List Nat) :=
  let pool? : Option (List Nat) :=
    if engine_type = "v8" then
      some (fillPool V8Mwc1616.next_u16 (V8Mwc1616.init ts) 256)
    else if engine_type = "java" ∨ engine_type = "ie" then
      some (fillPool JavaLcg.next_u16 (JavaLcg.init ts) 256)
    else if engine_type = "safari-win" then
      some (fillPool SafariCrt.next_u16 (SafariCrt.init ts) 256)
    else none
  match pool? with
  | none => none
  | some pool => some (keystreamFold (ARC4.init (whitenLoop ts pool)) 32)

/-- Specification reading of §4.1 pool filling: draw `⌈n/2⌉` 16-bit values,
split each into high byte then low byte, and truncate the byte stream to the
required length (an odd length drops the final low byte). -/
def specDrawBytes {σ : Type} (next : σ → Nat × σ) : σ → Nat → List Nat
  | _, 0 => []
  | st, k + 1 =>
    let p := next st
    ((p.1 >>> 8) &&& 0xFF) :: (p.1 &&& 0xFF) :: specDrawBytes next p.2 k

/-- Specification reading of §4.1 `fillPool(seed, requiredLength)`. -/
def specFillPool {σ : Type} (next : σ → Nat × σ) (st : σ) (n : Nat) :
    List Nat :=
  (specDrawBytes next st ((n + 1) / 2)).take n

/-- Little-endian byte list of `n` over `len` positions: the model of Python's
`int.to_bytes(len, "little")` (which additionally raises for
`n ≥ 256 ^ len`; theorems that rely on this model carry the corresponding
bound as a hypothesis). -/
def toBytesLE (n : Nat) : Nat → List Nat
  | 0 => []
  | len + 1 => (n % 256) :: toBytesLE (n / 256) len

/-- Specification reading of the §4.2 whitening step: XOR the first four pool
bytes with the little-endian bytes of the seeding timestamp, leaving the rest
of the pool unchanged. -/
def specWhiten (ts : Nat) (pool : List Nat) : List Nat :=
  List.zipWith (fun a b => a ^^^ b) (pool.take 4) (toBytesLE ts 4) ++ pool.drop 4

/-- The first `n` keystream bytes of the stream cipher, emitted in order with
no byte discarded before emission. -/
def arc4Keystream : ARC4 → Nat → List Nat
  | _, 0 => []
  | st, n + 1 => (st.next_byte).1 :: arc4Keystream (st.next_byte).2 n

/-- Specification reading of §4.2 family 1 for one engine's pool: whiten the
pool with the timestamp, key the stream cipher on it, emit the first 32
keystream bytes. -/
def specStreamCipherKey (ts : Nat) (pool : List Nat) : List Nat :=
  arc4Keystream (ARC4.init (specWhiten ts pool)) 32

/-- The engine-indexed 256-byte entropy pool, written with the specification's
`fillPool` reading; mirrors the engine dispatch of `derive_privkey_python`. -/
def specEnginePool (ts : Nat) (engine_type : String) : Option (List Nat) :=
  if engine_type = "v8" then
    some (specFillPool V8Mwc1616.next_u16 (V8Mwc1616.init ts) 256)
  else if engine_type = "java" ∨ engine_type = "ie" then
    some (specFillPool JavaLcg.next_u16 (JavaLcg.init ts) 256)
  else if engine_type = "safari-win" then
    some (specFillPool SafariCrt.next_u16 (SafariCrt.init ts) 256)
  else none

/-- The list of the first `n` successive `next_u16` outputs of a `V8Mwc1616`
instance. -/
def v8OutputSeq (st : V8Mwc1616) : Nat → List Nat
  | 0 => []
  | n + 1 => (st.next_u16).1 :: v8OutputSeq (st.next_u16).2 n

/-- `rotr` (sim_sha.py): 32-bit rotate right. -/
def rotr (x n : Nat) : Nat :=
  ((x &&& 0xffffffff) >>> n) ||| ((x <<< (32 - n)) &&& 0xffffffff)

/-- `sigma0` (sim_sha.py). -/
def sigma0 (x : Nat) : Nat := rotr x 2 ^^^ rotr x 13 ^^^ rotr x 22

/-- `sigma1` (sim_sha.py). -/
def sigma1 (x : Nat) : Nat := rotr x 6 ^^^ rotr x 11 ^^^ rotr x 25

/-- `delta0` (sim_sha.py). -/
def delta0 (x : Nat) : Nat := rotr x 7 ^^^ rotr x 18 ^^^ (x >>> 3)

/-- `delta1` (sim_sha.py). -/
def delta1 (x : Nat) : Nat := rotr x 17 ^^^ rotr x 19 ^^^ (x >>> 10)

/-- `ch` (sim_sha.py): `(x & y) ^ ((~x) & z)`.  Python's `~x` on an unbounded
int, ANDed against a value below `2^32` while `x` itself is below `2^32`,
clears exactly the bits of `x`; on that domain it coincides with XOR against
`0xffffffff`, which is how the complement is rendered here. -/
def ch (x y z : Nat) : Nat := (x &&& y) ^^^ ((x ^^^ 0xffffffff) &&& z)

/-- `maj` (sim_sha.py). -/
def maj (x y z : Nat) : Nat := (x &&& y) ^^^ (x &&& z) ^^^ (y &&& z)

/-- The 64 round constants `K` of sim_sha.py. -/
def K : List Nat :=
  0x428a2f98 :: 0x71374491 :: 0xb5c0fbcf :: 0xe9b5dba5 ::
  0x3956c25b :: 0x59f111f1 :: 0x923f82a4 :: 0xab1c5ed5 ::
  0xd807aa98 :: 0x12835b01 :: 0x243185be :: 0x550c7dc3 ::
  0x72be5d74 :: 0x80deb1fe :: 0x9bdc06a7 :: 0xc19bf174 ::
  0xe49b69c1 :: 0xefbe4786 :: 0x0fc19dc6 :: 0x240ca1cc ::
  0x2de92c6f :: 0x4a7484aa :: 0x5cb0a9dc :: 0x76f988da ::
  0x983e5152 :: 0xa831c66d :: 0xb00327c8 :: 0xbf597fc7 ::
  0xc6e00bf3 :: 0xd5a79147 :: 0x06ca6351 :: 0x14292967 ::
  0x27b70a85 :: 0x2e1b2138 :: 0x4d2c6dfc :: 0x53380d13 ::
  0x650a7354 :: 0x766a0abb :: 0x81c2c92e :: 0x92722c85 ::
  0xa2bfe8a1 :: 0xa81a664b :: 0xc24b8b70 :: 0xc76c51a3 ::
  0xd192e819 :: 0xd6990624 :: 0xf40e3585 :: 0x106aa070 ::
  0x19a4c116 :: 0x1e376c08 :: 0x2748774c :: 0x34b0bcb5 ::
  0x391c0cb3 :: 0x4ed8aa4a :: 0x5b9cca4f :: 0x682e6ff3 ::
  0x748f82ee :: 0x78a5636f :: 0x84c87814 :: 0x8cc70208 ::
  0x90beffda :: 0xa4506ceb :: 0xbef9a3f7 :: 0xc67178f2 :: []

/-- The message-schedule extension loop `for i in range(16, 64)` of
`transform`: append the mixed word built from the entries 2, 7, 15 and 16
places back, `k` times. -/
def schedExtend : List Nat → Nat → List Nat
  | m, 0 => m
  | m, k + 1 =>
    schedExtend
      (m ++ [(delta1 (m.getD (m.length - 2) 0) + m.getD (m.length - 7) 0 +
        delta0 (m.getD (m.length - 15) 0) + m.getD (m.length - 16) 0) &&&
          0xffffffff]) k

/-- The eight working variables `a`..`h` of `transform`. -/
structure SHAVars where
  a : Nat
  b : Nat
  c : Nat
  d : Nat
  e : Nat
  f : Nat
  g : Nat
  h : Nat
deriving DecidableEq

/-- One of the 64 compression rounds of `transform` at index `i` with message
schedule `m`. -/
def shaRound (m : List Nat) (w : SHAVars) (i : Nat) : SHAVars :=
  let t1 := (w.h + sigma1 w.e + ch w.e w.f w.g + K.getD i 0 + m.getD i 0) &&&
    0xffffffff
  let t2 := (sigma0 w.a + maj w.a w.b w.c) &&& 0xffffffff
  { a := (t1 + t2) &&& 0xffffffff, b := w.a, c := w.b, d := w.c,
    e := (w.d + t1) &&& 0xffffffff, f := w.e, g := w.f, h := w.g }

/-- `transform` (sim_sha.py lines 35-63): copy the 16 data words, extend the
message schedule to 64 words, run 64 rounds on the working variables, and add
the result into the state (addition, not replacement). -/
def transform (state data : List Nat) : List Nat :=
  let m := schedExtend ((List.range 16).map (fun i => data.getD i 0)) 48
  let w0 : SHAVars :=
    { a := state.getD 0 0, b := state.getD 1 0, c := state.getD 2 0,
      d := state.getD 3 0, e := state.getD 4 0, f := state.getD 5 0,
      g := state.getD 6 0, h := state.getD 7 0 }
  let w := (List.range 64).foldl (shaRound m) w0
  [(state.getD 0 0 + w.a) &&& 0xffffffff, (state.getD 1 0 + w.b) &&& 0xffffffff,
   (state.getD 2 0 + w.c) &&& 0xffffffff, (state.getD 3 0 + w.d) &&& 0xffffffff,
   (state.getD 4 0 + w.e) &&& 0xffffffff, (state.getD 5 0 + w.f) &&& 0xffffffff,
   (state.getD 6 0 + w.g) &&& 0xffffffff, (state.getD 7 0 + w.h) &&& 0xffffffff]

/-- The hard-coded initial state vector of sim_sha.py (line 65). -/
def shaInitState : List Nat :=
  0x6a09e667 :: 0xbb67ae85 :: 0x3c6ef372 :: 0xa54ff53a ::
    0x510e527f :: 0x9b05688c :: 0x1f83d9ab :: 0x5be0cd19 :: []

/-- The padded single-block message "abc" of sim_sha.py (lines 67-69):
sixteen zero words with word 0 set to `0x61626380` and word 15 set to 24. -/
def abcBlock : List Nat :=
  ((List.replicate 16 0).set 0 0x61626380).set 15 24

/-- Lowercase hexadecimal digit for a nibble. -/
def hexDigit (n : Nat) : Char :=
  if n < 10 then Char.ofNat (48 + n) else Char.ofNat (87 + n)

/-- Eight-hex-digit lowercase rendering of a 32-bit word, as Python's
`format(x, "08x")` renders it. -/
def wordHex (w : Nat) : List Char :=
  (List.range 8).map (fun i => hexDigit ((w >>> (4 * (7 - i))) &&& 0xF))

/-- The digest rendering `"".join(format(x, "08x") for x in state)`. -/
def stateHex (state : List Nat) : String :=
  ⟨(state.map wordHex).flatten⟩

/-- One compression round as in `shaRound`, but reading the round constant
from an arbitrary table `Ktab` instead of the file's `K`; used to localise the
divergence of `K` from the standard constants. -/
def shaRoundWith (Ktab m : List Nat) (w : SHAVars) (i : Nat) : SHAVars :=
  let t1 := (w.h + sigma1 w.e + ch w.e w.f w.g + Ktab.getD i 0 + m.getD i 0) &&&
    0xffffffff
  let t2 := (sigma0 w.a + maj w.a w.b w.c) &&& 0xffffffff
  { a := (t1 + t2) &&& 0xffffffff, b := w.a, c := w.b, d := w.c,
    e := (w.d + t1) &&& 0xffffffff, f := w.e, g := w.f, h := w.g }

/-- `transform` with the round-constant table as a parameter;
`transformWith K` is definitionally the file's `transform`. -/
def transformWith (Ktab state data : List Nat) : List Nat :=
  let m := schedExtend ((List.range 16).map (fun i => data.getD i 0)) 48
  let w0 : SHAVars :=
    { a := state.getD 0 0, b := state.getD 1 0, c := state.getD 2 0,
      d := state.getD 3 0, e := state.getD 4 0, f := state.getD 5 0,
      g := state.getD 6 0, h := state.getD 7 0 }
  let w := (List.range 64).foldl (shaRoundWith Ktab m) w0
  [(state.getD 0 0 + w.a) &&& 0xffffffff, (state.getD 1 0 + w.b) &&& 0xffffffff,
   (state.getD 2 0 + w.c) &&& 0xffffffff, (state.getD 3 0 + w.d) &&& 0xffffffff,
   (state.getD 4 0 + w.e) &&& 0xffffffff, (state.getD 5 0 + w.f) &&& 0xffffffff,
   (state.getD 6 0 + w.g) &&& 0xffffffff, (state.getD 7 0 + w.h) &&& 0xffffffff]

/-- `VulnerablePRNG.MULTIPLIER` (scripts/generate_test_vectors_option_a.py). -/
def MULTIPLIER : Nat := 25214903917

/-- `VulnerablePRNG.INCREMENT`. -/
def INCREMENT : Nat := 11

/-- `VulnerablePRNG.MODULUS`: `(1 << 48) - 1`, used both as the AND mask of the
state update and as the divisor of `next_random`. -/
def MODULUS : Nat := (1 <<< 48) - 1

/-- The state update inside `VulnerablePRNG.next_random`:
`seed = (seed * MULTIPLIER + INCREMENT) & MODULUS`. -/
def vulnStep (seed : Nat) : Nat := (seed * MULTIPLIER + INCREMENT) &&& MODULUS

/-- The scaling `int(self.next_random() * 65536)` of `generate_entropy` in
exact rational arithmetic: `next_random` returns `seed / MODULUS` and the
scaled value is truncated toward zero.  Python evaluates the division in
binary64 floating point, which on boundary seeds can move the truncated value
by one unit but can never push it above 65536; the theorems below therefore
quantify over an arbitrary scaling function where the value matters, and use
this exact-arithmetic version as the concrete witness. -/
def intTimes65536 (seed : Nat) : Nat := seed * 65536 / MODULUS

/-- The slice assignment `l[off : off + vals.length] = vals` of a Python
bytearray, for in-range slices. -/
def setSlice (l : List Nat) (off : Nat) (vals : List Nat) : List Nat :=
  l.take off ++ vals ++ l.drop (off + vals.length)

/-- `VulnerablePRNG.generate_entropy` (scripts/generate_test_vectors_option_a.py
lines 34-46), abstracted over the scaling function `drawInt` (the model of
`int(self.next_random() * 65536)` applied to the updated seed): start from
`bytearray(32)`, write the little-endian 8-byte timestamp at offset 0, then
for `i in range(3)` write the `i`-th scaled draw, widened to 8 little-endian
bytes, at offset `8 + i*8`.  The seed starts at `timestamp_ms ^ sequence`. -/
def generate_entropy (drawInt : Nat → Nat) (timestamp_ms sequence : Nat) :
    List Nat :=
  let entropy := setSlice (List.replicate 32 0) 0 (toBytesLE timestamp_ms 8)
  ((List.range 3).foldl
    (fun acc i =>
      let seed := vulnStep acc.2
      (setSlice acc.1 (8 + i * 8) (toBytesLE (drawInt seed) 8), seed))
    (entropy, timestamp_ms ^^^ sequence)).1

/-- Big-endian 32-bit word read from four consecutive bytes of `l`. -/
def wordBE (l : List Nat) (off : Nat) : Nat :=
  l.getD off 0 * 16777216 + l.getD (off + 1) 0 * 65536 +
    l.getD (off + 2) 0 * 256 + l.getD (off + 3) 0

/-- Big-endian 4-byte rendering of a 32-bit word. -/
def wordBytesBE (w : Nat) : List Nat :=
  [(w >>> 24) &&& 0xFF, (w >>> 16) &&& 0xFF, (w >>> 8) &&& 0xFF, w &&& 0xFF]

/-- Modelled from the spec: the standard SHA-256 round-constant table — the
file's `K` with its entry 60 corrected from the typo `0x90beffda` to the
standard `0x90befffa` (see the C6 theorem, which isolates that typo as the
sole divergence of sim_sha.py's transform from the canonical digest). -/
def KStd : List Nat := K.set 60 0x90befffa

/-- Modelled from the spec: `hashlib.sha256` (Python standard library, not
part of src/) applied to a 32-byte message — the "256-bit cryptographic hash"
of §4.2.  Implemented with the repository's reference transform shape over
the standard constant table `KStd` (the in-repo table has the entry-60 typo
and would not reproduce `hashlib`), and the standard single-block padding of
a 32-byte message: the eight big-endian data words, the `0x80` padding byte
leading word 8, six zero words, and the bit length 256 as word 15; the digest
is the big-endian byte rendering of the final state. -/
def sha256_32 (msg : List Nat) : List Nat :=
  let block := (List.range 8).map (fun i => wordBE msg (4 * i)) ++
    [0x80000000, 0, 0, 0, 0, 0, 0, 256]
  ((transformWith KStd shaInitState block).map wordBytesBE).flatten

/-- `VulnerablePRNG.derive_private_key` (lines 48-51): the 256-bit hash of the
generated entropy, abstracted over the scaling function like
`generate_entropy`. -/
def derive_private_key (drawInt : Nat → Nat) (timestamp_ms sequence : Nat) :
    List Nat :=
  sha256_32 (generate_entropy drawInt timestamp_ms sequence)

/-- The 32-byte buffer exactly as C4's sentence describes it: the little-endian
8-byte timestamp, then three successive draws of the 48-bit LCG seeded by
`timestamp XOR sequenceIndex`, each draw widened to 8 little-endian bytes. -/
def specTimestampHashBuffer (drawInt : Nat → Nat) (ts seq : Nat) : List Nat :=
  let s1 := vulnStep (ts ^^^ seq)
  let s2 := vulnStep s1
  let s3 := vulnStep s2
  toBytesLE ts 8 ++ toBytesLE (drawInt s1) 8 ++ toBytesLE (drawInt s2) 8 ++
    toBytesLE (drawInt s3) 8

/-- Little-endian byte-list decoding, the inverse reading of `toBytesLE`. -/
def fromBytesLE : List Nat → Nat
  | [] => 0
  | b :: rest => b + 256 * fromBytesLE rest

/-- One test vector record as the parity-validation main loop consumes it:
the vulnerability tag, the engine string, the timestamp, and the expected
private-key hex string. -/
structure PVec where
  vulnerability : String
  engine : String
  timestamp_ms : Nat
  expected_privkey_hex : String
deriving DecidableEq

/-- `binascii.hexlify(...).decode()`: two lowercase hex digits per byte. -/
def hexlify (bs : List Nat) : String :=
  ⟨(bs.map (fun b => [hexDigit (b / 16), hexDigit (b % 16)])).flatten⟩

/-- Result of the parity-validation replay loop: the running pass and fail
counters and whether the loop ended early through the failure `break`. -/
structure MainResult where
  passed : Nat
  failed : Nat
  stoppedEarly : Bool
deriving DecidableEq

/-- The vector-replay loop of `main` (tests/validate_parity.py lines
122-145): skip vectors whose vulnerability tag is not "randstorm"; skip
vectors whose engine is unsupported (`derive_privkey_python` returns `None`);
compare the hex of the derived key with the expected hex, counting passes and
failures; after recording a failure, `break` as soon as the cumulative failure
counter exceeds 5. -/
def mainLoop : Nat → Nat → List PVec → MainResult
  | passed, failed, [] =>
    { passed := passed, failed := failed, stoppedEarly := false }
  | passed, failed, v :: rest =>
    if v.vulnerability ≠ "randstorm" then mainLoop passed failed rest
    else match derive_privkey_python v.timestamp_ms v.engine with
      | none => mainLoop passed failed rest
      | some k =>
        if hexlify k = v.expected_privkey_hex then
          mainLoop (passed + 1) failed rest
        else if failed + 1 > 5 then
          { passed := passed, failed := failed + 1, stoppedEarly := true }
        else mainLoop passed (failed + 1) rest

/-- After the loop, `main` calls `sys.exit(1)` exactly when `failed ≠ 0`:
the non-zero-exit-status predicate of a run. -/
def mainExitNonZero (vectors : List PVec) : Bool :=
  (mainLoop 0 0 vectors).failed ≠ 0

/-- Whether the loop records a vector as a mismatch: a randstorm vector with a
supported engine whose derived key hex differs from the expected hex. -/
def isMismatch (v : PVec) : Bool :=
  v.vulnerability = "randstorm" &&
    match derive_privkey_python v.timestamp_ms v.engine with
    | none => false
    | some k => hexlify k ≠ v.expected_privkey_hex

/-- The stopping rule exactly as claim C7 words it: a consecutive-mismatch
counter that a passing vector resets, the run stopping early exactly when the
counter exceeds 5.  Returns true when that rule stops before the list ends. -/
def consecutiveStop (consec : Nat) : List PVec → Bool
  | [] => false
  | v :: rest =>
    if v.vulnerability ≠ "randstorm" then consecutiveStop consec rest
    else match derive_privkey_python v.timestamp_ms v.engine with
      | none => consecutiveStop consec rest
      | some k =>
        if hexlify k = v.expected_privkey_hex then consecutiveStop 0 rest
        else if consec + 1 > 5 then true
        else consecutiveStop (consec + 1) rest

/-- A test vector that `mainLoop` counts as a mismatch: the expected hex is
empty, which no 32-byte key's 64-character hex equals. -/
def badVec : PVec :=
  { vulnerability := "randstorm", engine := "v8", timestamp_ms := 0,
    expected_privkey_hex := "" }

/-- A test vector that `mainLoop` counts as a pass: its expected hex is the
hex of the key the code itself derives at `(0, "v8")`. -/
def goodVec : PVec :=
  { vulnerability := "randstorm", engine := "v8", timestamp_ms := 0,
    expected_privkey_hex := hexlify ((derive_privkey_python 0 "v8").getD []) }

/-- Eleven vectors alternating mismatch and pass: six mismatches in total but
never two consecutive ones. -/
def alternatingVecs : List PVec :=
  [badVec, goodVec, badVec, goodVec, badVec, goodVec, badVec, goodVec,
   badVec, goodVec, badVec]

/-- The row-processing loop of `check_address_csv` (bloom-util.py lines
43-74), with bloom-filter membership abstracted as `member` and the CSV rows
already split into field lists; arguments `i`, `found`, `skip` mirror the
`i`, `found`, `skip_lines_remaining` counters.  Returns `(i, found)` on
normal completion.  A row from which the id and address fields cannot be
extracted raises `IndexError`, whose handler clause `except e:` evaluates the
undefined name `e` and therefore raises `NameError`, aborting the batch:
modelled as `Except.error "NameError"`. -/
def check_address_csv (member : String → Bool) :
    List (List String) → Nat → Nat → Nat → Except String (Nat × Nat)
  | [], i, found, _ => Except.ok (i, found)
  | row :: rest, i, found, skip =>
    if skip > 0 then check_address_csv member rest (i + 1) found (skip - 1)
    else match row with
      | _ :: address :: _ =>
        check_address_csv member rest (i + 1)
          (if member address then found + 1 else found) 0
      | _ => Except.error "NameError"

/-- The same loop as the specification intends it (§4.5, §7 and the code's
own comment and message "broken input, skipping"): a malformed row is skipped
without incrementing `i` (the `continue` precedes `i += 1`) and the batch
continues. -/
def specCheckAddressCsv (member : String → Bool) :
    List (List String) → Nat → Nat → Nat → Nat × Nat
  | [], i, found, _ => (i, found)
  | row :: rest, i, found, skip =>
    if skip > 0 then specCheckAddressCsv member rest (i + 1) found (skip - 1)
    else match row with
      | _ :: address :: _ =>
        specCheckAddressCsv member rest (i + 1)
          (if member address then found + 1 else found) 0
      | _ => specCheckAddressCsv member rest i found 0

/-- Concrete row batch with a malformed second row (a single field, as an
incomplete CSV line produces). -/
def c8Rows : List (List String) :=
  [["0", "addr0"], ["oops"], ["1", "addr1"]]

/-- The ASCII whitespace characters Python's `str.strip()` removes. -/
def isPySpace (c : Char) : Bool :=
  c = ' ' || c = '\t' || c = '\n' || c = '\r' || c = '\x0b' || c = '\x0c'

/-- Python's `line.strip()`: drop leading and trailing whitespace. -/
def pyStrip (s : String) : String :=
  ⟨((s.data.dropWhile isPySpace).reverse.dropWhile isPySpace).reverse⟩

/-- Python's `address.encode()`: the UTF-8 bytes of the string, modelled as
the code-point list (identical to the UTF-8 bytes for the ASCII address
corpus this utility consumes). -/
def pyEncode (s : String) : List Nat := s.data.map Char.toNat

/-- Modelled from the spec: the probabilistic membership structure behind the
bloom-filter utility.  The library type `pybloom_live.BloomFilter` is
external to src/, so per §4.5 and the §9 persistence note ("bit array +
parameters") the index is a bit array; the bit count `m` and the hash family
`hashes` (each mapping a byte string to a position, reduced mod `m`) stand
for the parameters that `BloomFilter(capacity=…, error_rate=…)` derives
internally, and the theorems quantify over them. -/
structure BloomFilter where
  bits : List Bool
deriving DecidableEq

/-- Modelled from the spec: `bloom_filter.add(item)` — set the bit selected
by every hash of the item. -/
def bloomAdd (hashes : List (List Nat → Nat)) (m : Nat) (f : BloomFilter)
    (item : List Nat) : BloomFilter :=
  { bits := hashes.foldl (fun bs h => bs.set (h item % m) true) f.bits }

/-- Modelled from the spec: `item in bloom_filter` — every hash's bit is
set. -/
def bloomQuery (hashes : List (List Nat → Nat)) (m : Nat) (f : BloomFilter)
    (item : List Nat) : Bool :=
  hashes.all (fun h => f.bits.getD (h item % m) false)

/-- Modelled from the spec: `pickle.dump` of the filter — persistence to an
opaque blob that must round-trip; rendered as the 0/1 bytes of the bit
array. -/
def persistBloom (f : BloomFilter) : List Nat :=
  f.bits.map (fun b => if b then 1 else 0)

/-- Modelled from the spec: `pickle.load` of the blob. -/
def loadBloom (blob : List Nat) : BloomFilter :=
  { bits := blob.map (fun n => decide (n ≠ 0)) }

/-- `construct_bloom_filter` (bloom-util.py lines 8-21) over an in-memory
line list (the file iteration is IO): strip each line, insert its byte
encoding into a freshly constructed filter, and persist the result. -/
def construct_bloom_filter (hashes : List (List Nat → Nat)) (m : Nat)
    (lines : List String) : List Nat :=
  persistBloom (lines.foldl
    (fun f line => bloomAdd hashes m f (pyEncode (pyStrip line)))
    { bits := List.replicate m false })

/-- `check_address` (bloom-util.py lines 23-32): load the persisted filter
and query the byte-encoded address. -/
def check_address (hashes : List (List Nat → Nat)) (m : Nat)
    (filterBlob : List Nat) (address : String) : Bool :=
  bloomQuery hashes m (loadBloom filterBlob) (pyEncode address)


/-- One per-round tuple of the RIPEMD-160 RoundSpec
(scripts/generate_ripemd160_wgsl.py): the variable-order string and the
left/right message indices and rotation amounts. -/
structure RoundEntry where
  vars : String
  rLeft : Nat
  sLeft : Nat
  rRight : Nat
  sRight : Nat
deriving DecidableEq

/-- One 16-round group of the RoundSpec: its name, the left/right function
selectors and round constants, and the per-round tuples. -/
structure RoundGroup where
  name : String
  fLeft : String
  kLeft : String
  fRight : String
  kRight : String
  data : List RoundEntry
deriving DecidableEq

/-- The `rounds` table (scripts/generate_ripemd160_wgsl.py lines 6-102):
five 16-round groups, each with its name, left/right function selectors,
left/right round constants, and per-round tuples. -/
def rounds : List RoundGroup := [
  ⟨"round1", "F1", "0x00000000u", "F5", "0x50a28be6u", [
    ⟨"A,B,C,D,E", 0, 11, 5, 8⟩,
    ⟨"E,A,B,C,D", 1, 14, 14, 9⟩,
    ⟨"D,E,A,B,C", 2, 15, 7, 9⟩,
    ⟨"C,D,E,A,B", 3, 12, 0, 11⟩,
    ⟨"B,C,D,E,A", 4, 5, 9, 13⟩,
    ⟨"A,B,C,D,E", 5, 8, 2, 15⟩,
    ⟨"E,A,B,C,D", 6, 7, 11, 15⟩,
    ⟨"D,E,A,B,C", 7, 9, 4, 5⟩,
    ⟨"C,D,E,A,B", 8, 11, 13, 7⟩,
    ⟨"B,C,D,E,A", 9, 13, 6, 7⟩,
    ⟨"A,B,C,D,E", 10, 14, 15, 8⟩,
    ⟨"E,A,B,C,D", 11, 15, 8, 11⟩,
    ⟨"D,E,A,B,C", 12, 6, 1, 14⟩,
    ⟨"C,D,E,A,B", 13, 7, 10, 14⟩,
    ⟨"B,C,D,E,A", 14, 9, 3, 12⟩,
    ⟨"A,B,C,D,E", 15, 8, 12, 6⟩]⟩,
  ⟨"round2", "F2", "0x5a827999u", "F4", "0x5c4dd124u", [
    ⟨"E,A,B,C,D", 7, 7, 6, 9⟩,
    ⟨"D,E,A,B,C", 4, 6, 11, 13⟩,
    ⟨"C,D,E,A,B", 13, 8, 3, 15⟩,
    ⟨"B,C,D,E,A", 1, 13, 7, 7⟩,
    ⟨"A,B,C,D,E", 10, 11, 0, 12⟩,
    ⟨"E,A,B,C,D", 6, 9, 13, 8⟩,
    ⟨"D,E,A,B,C", 15, 7, 5, 9⟩,
    ⟨"C,D,E,A,B", 3, 15, 10, 11⟩,
    ⟨"B,C,D,E,A", 12, 7, 14, 7⟩,
    ⟨"A,B,C,D,E", 0, 12, 15, 7⟩,
    ⟨"E,A,B,C,D", 9, 15, 8, 12⟩,
    ⟨"D,E,A,B,C", 5, 9, 12, 7⟩,
    ⟨"C,D,E,A,B", 2, 11, 4, 6⟩,
    ⟨"B,C,D,E,A", 14, 7, 9, 15⟩,
    ⟨"A,B,C,D,E", 11, 13, 1, 13⟩,
    ⟨"E,A,B,C,D", 8, 12, 2, 11⟩]⟩,
  ⟨"round3", "F3", "0x6ed9eba1u", "F3", "0x6d703ef3u", [
    ⟨"D,E,A,B,C", 3, 11, 15, 9⟩,
    ⟨"C,D,E,A,B", 10, 13, 5, 7⟩,
    ⟨"B,C,D,E,A", 14, 6, 1, 15⟩,
    ⟨"A,B,C,D,E", 4, 7, 3, 11⟩,
    ⟨"E,A,B,C,D", 9, 14, 7, 8⟩,
    ⟨"D,E,A,B,C", 15, 9, 14, 6⟩,
    ⟨"C,D,E,A,B", 8, 13, 6, 6⟩,
    ⟨"B,C,D,E,A", 1, 15, 9, 14⟩,
    ⟨"A,B,C,D,E", 2, 14, 11, 12⟩,
    ⟨"E,A,B,C,D", 7, 8, 8, 13⟩,
    ⟨"D,E,A,B,C", 0, 13, 12, 5⟩,
    ⟨"C,D,E,A,B", 6, 6, 2, 14⟩,
    ⟨"B,C,D,E,A", 13, 5, 10, 13⟩,
    ⟨"A,B,C,D,E", 11, 12, 0, 13⟩,
    ⟨"E,A,B,C,D", 5, 7, 4, 7⟩,
    ⟨"D,E,A,B,C", 12, 5, 13, 5⟩]⟩,
  ⟨"round4", "F4", "0x8f1bbcdcu", "F2", "0x7a6d76e9u", [
    ⟨"C,D,E,A,B", 1, 11, 8, 15⟩,
    ⟨"B,C,D,E,A", 9, 12, 6, 5⟩,
    ⟨"A,B,C,D,E", 11, 14, 4, 8⟩,
    ⟨"E,A,B,C,D", 10, 15, 1, 11⟩,
    ⟨"D,E,A,B,C", 0, 14, 3, 14⟩,
    ⟨"C,D,E,A,B", 8, 15, 11, 14⟩,
    ⟨"B,C,D,E,A", 12, 9, 15, 6⟩,
    ⟨"A,B,C,D,E", 4, 8, 0, 14⟩,
    ⟨"E,A,B,C,D", 13, 9, 5, 6⟩,
    ⟨"D,E,A,B,C", 3, 14, 12, 9⟩,
    ⟨"C,D,E,A,B", 7, 5, 2, 12⟩,
    ⟨"B,C,D,E,A", 15, 6, 13, 9⟩,
    ⟨"A,B,C,D,E", 14, 8, 9, 12⟩,
    ⟨"E,A,B,C,D", 5, 6, 7, 5⟩,
    ⟨"D,E,A,B,C", 6, 5, 10, 15⟩,
    ⟨"C,D,E,A,B", 2, 12, 14, 8⟩]⟩,
  ⟨"round5", "F5", "0xa953fd4eu", "F1", "0x00000000u", [
    ⟨"B,C,D,E,A", 4, 9, 12, 8⟩,
    ⟨"A,B,C,D,E", 0, 15, 15, 5⟩,
    ⟨"E,A,B,C,D", 5, 5, 10, 12⟩,
    ⟨"D,E,A,B,C", 9, 11, 4, 9⟩,
    ⟨"C,D,E,A,B", 7, 6, 1, 12⟩,
    ⟨"B,C,D,E,A", 12, 8, 5, 5⟩,
    ⟨"A,B,C,D,E", 2, 13, 8, 14⟩,
    ⟨"E,A,B,C,D", 10, 12, 7, 6⟩,
    ⟨"D,E,A,B,C", 14, 5, 6, 8⟩,
    ⟨"C,D,E,A,B", 1, 12, 2, 13⟩,
    ⟨"B,C,D,E,A", 3, 13, 13, 6⟩,
    ⟨"A,B,C,D,E", 8, 14, 14, 5⟩,
    ⟨"E,A,B,C,D", 11, 11, 0, 15⟩,
    ⟨"D,E,A,B,C", 6, 8, 3, 13⟩,
    ⟨"C,D,E,A,B", 15, 5, 9, 11⟩,
    ⟨"B,C,D,E,A", 13, 6, 11, 11⟩]⟩]

/-- The `f_functions` lookup table (lines 105-111); selectors outside the
table map to the empty string (the rounds table only uses the five listed
selectors). -/
def f_functions (k : String) : String :=
  if k = "F1" then "(b ^ c ^ d)"
  else if k = "F2" then "((b & c) | ((~b) & d))"
  else if k = "F3" then "((b | (~c)) ^ d)"
  else if k = "F4" then "((b & d) | (c & (~d)))"
  else if k = "F5" then "(b ^ (c | (~d)))"
  else ""

/-- Python's `str.lower()`. -/
def pyLower (s : String) : String := ⟨s.data.map Char.toLower⟩

/-- Python's `str.capitalize()`: first character upper-cased, the rest
lower-cased. -/
def pyCapitalize (s : String) : String :=
  match s.data with
  | [] => ⟨[]⟩
  | c :: rest => ⟨Char.toUpper c :: rest.map Char.toLower⟩

/-- `apply_func` (lines 124-133): two-pass textual substitution of the
working-variable letters `b`, `c`, `d` through collision-free placeholders,
iterating the substitution map in its insertion order b, c, d. -/
def apply_func (expr vb vc vd : String) : String :=
  let r := ((expr.replace "b" "___b___").replace "c" "___c___").replace
    "d" "___d___"
  ((r.replace "___b___" vb).replace "___c___" vc).replace "___d___" vd

/-- The two generated statements for one round-data entry (the loop body of
`generate_round`, lines 117-144): parse the variable order, build the left
and right lane statements. -/
def roundLines (g : RoundGroup) (entry : RoundEntry) : List String :=
  let parts := (entry.vars.splitOn ",").map pyLower
  let a := parts.getD 0 ""
  let b := parts.getD 1 ""
  let c := parts.getD 2 ""
  let d := parts.getD 3 ""
  let e := parts.getD 4 ""
  let fl := apply_func (f_functions g.fLeft) b c d
  let fr := apply_func (f_functions g.fRight) (b ++ "p") (c ++ "p") (d ++ "p")
  let leftLine := "    " ++ a ++ " += " ++ fl ++ " + block[" ++
    toString entry.rLeft ++ "] + " ++ g.kLeft ++ "; " ++ a ++ " = rol(" ++
    a ++ ", " ++ toString entry.sLeft ++ "u) + " ++ e ++ "; " ++ c ++
    " = rol(" ++ c ++ ", 10u);"
  let rightLine := "    " ++ (a ++ "p") ++ " += " ++ fr ++ " + block[" ++
    toString entry.rRight ++ "] + " ++ g.kRight ++ "; " ++ (a ++ "p") ++
    " = rol(" ++ (a ++ "p") ++ ", " ++ toString entry.sRight ++ "u) + " ++
    (e ++ "p") ++ "; " ++ (c ++ "p") ++ " = rol(" ++ (c ++ "p") ++ ", 10u);"
  [leftLine, rightLine]

/-- `generate_round` (lines 113-146): the comment header followed by the two
statements per entry, joined with newlines. -/
def generate_round (g : RoundGroup) : String :=
  let header := "    // " ++ pyCapitalize g.name ++ ": " ++ g.fLeft ++
    " left, " ++ g.fRight ++ " right"
  let lines := g.data.foldl (fun acc entry => acc ++ roundLines g entry)
    [header]
  String.intercalate "\n" lines

/-- The complete generated kernel text as the script prints it (lines
149-169): the fixed function header, each group's `generate_round` output
followed by a blank line, and the fixed cross-lane recombination footer.
Every `print` appends a newline; the braces of the quoted WGSL text appear
via their character escapes. -/
def kernelSourceText (rs : List RoundGroup) : String :=
  let header := "fn ripemd160_transform(state: ptr<function, array<u32, 5>>, block: array<u32, 16>) \x7b\n" ++
    "    var a = (*state)[0]; var b = (*state)[1]; var c = (*state)[2]; var d = (*state)[3]; var e = (*state)[4];\n" ++
    "    var ap = a; var bp = b; var cp = c; var dp = d; var ep = e;\n" ++
    "\n"
  let body := rs.foldl (fun acc g => acc ++ generate_round g ++ "\n\n") header
  body ++
    "    let h0 = (*state)[0];\n" ++
    "    let h1 = (*state)[1];\n" ++
    "    let h2 = (*state)[2];\n" ++
    "    let h3 = (*state)[3];\n" ++
    "    let h4 = (*state)[4];\n" ++
    "    \n" ++
    "    (*state)[0] = h1 + c + dp;\n" ++
    "    (*state)[1] = h2 + d + ep;\n" ++
    "    (*state)[2] = h3 + e + ap;\n" ++
    "    (*state)[3] = h4 + a + bp;\n" ++
    "    (*state)[4] = h0 + b + cp;\n" ++
    "\x7d\n"

end EntropyLab

namespace EntropyLab

/-- `fillPool` produces exactly the requested number of bytes. -/
theorem fillPool_length {σ : Type} (next : σ → Nat × σ) :
    ∀ (n : Nat) (st : σ), (fillPool next st n).length = n
  | 0, _ => rfl
  | 1, _ => rfl
  | n + 2, st => by
    simp only [fillPool, List.length_cons]
    rw [fillPool_length next n]

/-- The code's pool-filling loop agrees with the specification's reading:
`⌈n/2⌉` draws, split high-then-low, truncated to `n` bytes. -/
theorem fillPool_eq_specFillPool {σ : Type} (next : σ → Nat × σ) :
    ∀ (n : Nat) (st : σ), fillPool next st n = specFillPool next st n
  | 0, st => by simp [fillPool, specFillPool]
  | 1, st => by simp [fillPool, specFillPool, specDrawBytes]
  | n + 2, st => by
    have h : (n + 2 + 1) / 2 = (n + 1) / 2 + 1 := by omega
    simp only [fillPool, specFillPool, h, specDrawBytes, List.take_succ_cons]
    rw [fillPool_eq_specFillPool next n]
    rfl

/-- The keystream comprehension loop agrees with the direct recursion: a fold
appending one keystream byte per list element extends `acc` with
`arc4Keystream st l.length`; the elements themselves are ignored. -/
theorem keystream_foldl_eq {α : Type} (l : List α) :
    ∀ (st : ARC4) (acc : List Nat),
      (l.foldl
        (fun acc _ => ((acc.1 ++ [acc.2.next_byte.1] : List Nat), acc.2.next_byte.2))
        (acc, st)).1 = acc ++ arc4Keystream st l.length := by
  induction l with
  | nil => intro st acc; simp [arc4Keystream]
  | cons _ tl ih =>
    intro st acc
    simp only [List.foldl_cons, List.length_cons, arc4Keystream]
    rw [ih]
    simp

/-- `keystreamFold` equals the recursive keystream reading. -/
theorem keystreamFold_eq (st : ARC4) (n : Nat) :
    keystreamFold st n = arc4Keystream st n := by
  have h := keystream_foldl_eq (List.range n) st []
  simpa [keystreamFold, List.length_range] using h

/-- `arc4Keystream` emits exactly `n` bytes. -/
theorem arc4Keystream_length : ∀ (st : ARC4) (n : Nat),
    (arc4Keystream st n).length = n
  | _, 0 => rfl
  | st, n + 1 => by
    simp only [arc4Keystream, List.length_cons]
    rw [arc4Keystream_length]

/-- Masking with `0xFF` is reduction mod 256. -/
theorem and_0xFF (n : Nat) : n &&& 0xFF = n % 256 := by
  have h := Nat.and_pow_two_sub_one_eq_mod n 8
  norm_num at h
  exact h

/-- Masking with `0xFFFFFFFF` is reduction mod `2^32`. -/
theorem and_0xFFFFFFFF (n : Nat) : n &&& 0xFFFFFFFF = n % 4294967296 := by
  have h := Nat.and_pow_two_sub_one_eq_mod n 32
  norm_num at h
  exact h

/-- Shifting right by 32 is division by `2^32`. -/
theorem shiftRight32 (n : Nat) : n >>> 32 = n / 4294967296 := by
  have h := Nat.shiftRight_eq_div_pow n 32
  norm_num at h
  exact h

/-- The whitening loop of `derive_privkey_python` agrees with the
specification's reading on any pool of at least four bytes: XOR the first four
bytes with the little-endian bytes of the timestamp, rest unchanged. -/
theorem whitenLoop_eq_specWhiten (ts : Nat) (pool : List Nat)
    (h : 4 ≤ pool.length) : whitenLoop ts pool = specWhiten ts pool := by
  obtain ⟨a, b, c, d, rest, rfl⟩ :
      ∃ a b c d rest, pool = a :: b :: c :: d :: rest := by
    match pool, h with
    | a :: b :: c :: d :: rest, _ => exact ⟨a, b, c, d, rest, rfl⟩
  show (List.range 4).foldl _ _ = _
  simp only [show List.range 4 = [0, 1, 2, 3] from rfl, List.foldl_cons,
    List.foldl_nil, whitenLoop, specWhiten, tsBytes, toBytesLE, List.getD,
    List.set, List.get?, List.zipWith, List.take, List.drop,
    List.getElem?_cons_zero, List.getElem?_cons_succ]
  simp [and_0xFF, Nat.shiftRight_eq_div_pow, Nat.div_div_eq_div_mul]

/-- C1 — Key extraction is deterministic and history-free: for every timestamp
and every supported engine string (`"v8"`, `"java"`, `"ie"`, `"safari-win"`),
`derive_privkey_python` returns `some` 32-byte key, and every invocation with
the same `(timestamp, engine)` arguments returns that very key; the function
threads all generator state explicitly, so no hidden state exists. -/
theorem claim_C1_key_extraction_deterministic (ts : Nat) (e : String)
    (h : e = "v8" ∨ e = "java" ∨ e = "ie" ∨ e = "safari-win") :
    ∃ k, derive_privkey_python ts e = some k ∧ k.length = 32 ∧
      ∀ (ts2 : Nat) (e2 : String), ts2 = ts → e2 = e →
        derive_privkey_python ts2 e2 = some k := by
  have len : ∀ (pool : List Nat),
      (keystreamFold (ARC4.init (whitenLoop ts pool)) 32).length = 32 := by
    intro pool
    rw [keystreamFold_eq]
    exact arc4Keystream_length _ _
  rcases h with rfl | rfl | rfl | rfl
  · exact ⟨_, rfl, len _, fun _ _ h1 h2 => by subst h1; subst h2; exact rfl⟩
  · exact ⟨_, rfl, len _, fun _ _ h1 h2 => by subst h1; subst h2; exact rfl⟩
  · exact ⟨_, rfl, len _, fun _ _ h1 h2 => by subst h1; subst h2; exact rfl⟩
  · exact ⟨_, rfl, len _, fun _ _ h1 h2 => by subst h1; subst h2; exact rfl⟩

/-- Witness for C1 at `(timestamp, engine) = (0, "v8")`. -/
theorem claim_C1_key_extraction_deterministic_witness :
    ∃ k, derive_privkey_python 0 "v8" = some k ∧ k.length = 32 ∧
      ∀ (ts2 : Nat) (e2 : String), ts2 = 0 → e2 = "v8" →
        derive_privkey_python ts2 e2 = some k :=
  claim_C1_key_extraction_deterministic 0 "v8" (Or.inl rfl)

/-- C3 — Pool-whiten-then-stream-cipher family: for every timestamp and every
supported engine, the derived private key is exactly the first 32 keystream
bytes of the ARC4 stream cipher (256-entry permutation-schedule key setup,
lagged-swap keystream) keyed on the engine's 256-byte entropy pool whose first
four bytes were XORed with the little-endian bytes of the seeding timestamp;
no keystream byte is discarded before emission. -/
theorem claim_C3_pool_whiten_stream_cipher (ts : Nat) (e : String)
    (h : e = "v8" ∨ e = "java" ∨ e = "ie" ∨ e = "safari-win") :
    ∃ pool, specEnginePool ts e = some pool ∧ pool.length = 256 ∧
      derive_privkey_python ts e = some (specStreamCipherKey ts pool) := by
  have key : ∀ {σ : Type} (next : σ → Nat × σ) (st : σ),
      keystreamFold (ARC4.init (whitenLoop ts (fillPool next st 256))) 32 =
        specStreamCipherKey ts (specFillPool next st 256) := by
    intro σ next st
    rw [keystreamFold_eq, ← fillPool_eq_specFillPool,
      whitenLoop_eq_specWhiten ts _ (by rw [fillPool_length]; omega)]
    rfl
  have plen : ∀ {σ : Type} (next : σ → Nat × σ) (st : σ),
      (specFillPool next st 256).length = 256 := by
    intro σ next st
    rw [← fillPool_eq_specFillPool]
    exact fillPool_length _ _ _
  rcases h with rfl | rfl | rfl | rfl
  · exact ⟨_, rfl, plen _ _, by rw [show derive_privkey_python ts "v8" =
      some (keystreamFold (ARC4.init (whitenLoop ts
        (fillPool V8Mwc1616.next_u16 (V8Mwc1616.init ts) 256))) 32) from rfl, key]⟩
  · exact ⟨_, rfl, plen _ _, by rw [show derive_privkey_python ts "java" =
      some (keystreamFold (ARC4.init (whitenLoop ts
        (fillPool JavaLcg.next_u16 (JavaLcg.init ts) 256))) 32) from rfl, key]⟩
  · exact ⟨_, rfl, plen _ _, by rw [show derive_privkey_python ts "ie" =
      some (keystreamFold (ARC4.init (whitenLoop ts
        (fillPool JavaLcg.next_u16 (JavaLcg.init ts) 256))) 32) from rfl, key]⟩
  · exact ⟨_, rfl, plen _ _, by rw [show derive_privkey_python ts "safari-win" =
      some (keystreamFold (ARC4.init (whitenLoop ts
        (fillPool SafariCrt.next_u16 (SafariCrt.init ts) 256))) 32) from rfl, key]⟩

/-- Witness for C3 at `(timestamp, engine) = (1, "java")`. -/
theorem claim_C3_pool_whiten_stream_cipher_witness :
    ∃ pool, specEnginePool 1 "java" = some pool ∧ pool.length = 256 ∧
      derive_privkey_python 1 "java" = some (specStreamCipherKey 1 pool) :=
  claim_C3_pool_whiten_stream_cipher 1 "java" (Or.inr (Or.inl rfl))

/-- C5 — Zero-seed guard of `V8Mwc1616`: a seed whose low (resp. high) 32 bits
mask to zero yields, for every number of steps, the same `next_u16` output
sequence as the seed with that register set to 1 and the other register
unchanged. -/
theorem claim_C5_zero_seed_guard (seed n : Nat) :
    (seed &&& 0xFFFFFFFF = 0 →
      v8OutputSeq (V8Mwc1616.init seed) n =
        v8OutputSeq (V8Mwc1616.init (seed + 1)) n) ∧
    ((seed >>> 32) &&& 0xFFFFFFFF = 0 →
      v8OutputSeq (V8Mwc1616.init seed) n =
        v8OutputSeq (V8Mwc1616.init (seed % 4294967296 + 4294967296)) n) := by
  constructor
  · intro h
    rw [and_0xFFFFFFFF] at h
    have hst : V8Mwc1616.init seed = V8Mwc1616.init (seed + 1) := by
      have h1 : (seed + 1) % 4294967296 = 1 := by omega
      have h2 : (seed + 1) / 4294967296 = seed / 4294967296 := by omega
      simp [V8Mwc1616.init, and_0xFFFFFFFF, shiftRight32, h, h1, h2]
    rw [hst]
  · intro h
    rw [and_0xFFFFFFFF, shiftRight32] at h
    have hst : V8Mwc1616.init seed =
        V8Mwc1616.init (seed % 4294967296 + 4294967296) := by
      have h1 : (seed % 4294967296 + 4294967296) % 4294967296 =
          seed % 4294967296 := by omega
      have h2 : (seed % 4294967296 + 4294967296) / 4294967296 % 4294967296 = 1 := by
        omega
      simp [V8Mwc1616.init, and_0xFFFFFFFF, shiftRight32, h, h1, h2]
    rw [hst]

/-- Witness for C5: the low-bits guard at seed `2^32` and the high-bits guard
at seed `5`, each compared over three output steps. -/
theorem claim_C5_zero_seed_guard_witness :
    (v8OutputSeq (V8Mwc1616.init 4294967296) 3 =
      v8OutputSeq (V8Mwc1616.init (4294967296 + 1)) 3) ∧
    (v8OutputSeq (V8Mwc1616.init 5) 3 =
      v8OutputSeq (V8Mwc1616.init (5 % 4294967296 + 4294967296)) 3) :=
  ⟨(claim_C5_zero_seed_guard 4294967296 3).1 (by decide),
   (claim_C5_zero_seed_guard 5 3).2 (by decide)⟩

set_option maxRecDepth 20000

/-- C6 — Oracle parity of the 256-bit reference transform FAILS on the code:
on the standard initial state vector and the padded single-block message "abc"
(word 0 = `0x61626380`, word 15 = 24, all other words 0), `transform` of
sim_sha.py does NOT yield the canonical digest
`ba7816bf8f01cfea414140de5dae2223b00361a396177a9cb410ff61f20015ad`; it yields
`eee0f5566b6773b7c44051395dae22035f365f9d491eac7d38108fc4f200158d`.  The sole
cause is a typo in the round-constant table: entry 60 of `K` reads
`0x90beffda` where SHA-256 prescribes `0x90befffa`; with only that entry
corrected (the table `KStd`), the same transform does produce the canonical
digest. -/
theorem claim_C6_transform_abc_digest :
    stateHex (transform shaInitState abcBlock) =
      "eee0f5566b6773b7c44051395dae22035f365f9d491eac7d38108fc4f200158d" ∧
    stateHex (transform shaInitState abcBlock) ≠
      "ba7816bf8f01cfea414140de5dae2223b00361a396177a9cb410ff61f20015ad" ∧
    K.getD 60 0 = 0x90beffda ∧
    transformWith K shaInitState abcBlock = transform shaInitState abcBlock ∧
    stateHex (transformWith KStd shaInitState abcBlock) =
      "ba7816bf8f01cfea414140de5dae2223b00361a396177a9cb410ff61f20015ad" := by
  refine ⟨by decide, by decide, by decide, rfl, by decide⟩

/-- `toBytesLE` always produces the requested number of bytes. -/
theorem toBytesLE_length : ∀ (n len : Nat), (toBytesLE n len).length = len
  | _, 0 => rfl
  | n, len + 1 => by
    simp only [toBytesLE, List.length_cons]
    rw [toBytesLE_length]

/-- Writing `vals` into `A ++ C` at offset `A.length` keeps `A`, inserts
`vals`, and keeps the tail of `C` past `vals.length`. -/
theorem setSlice_append (A C vals : List Nat) :
    setSlice (A ++ C) A.length vals = A ++ vals ++ C.drop vals.length := by
  simp [setSlice, List.take_left, List.drop_append]

/-- Normal form of `generate_entropy`: the little-endian timestamp followed by
the three widened draws — the claim C4 buffer. -/
theorem generate_entropy_eq (drawInt : Nat → Nat) (ts seq : Nat) :
    generate_entropy drawInt ts seq = specTimestampHashBuffer drawInt ts seq := by
  have l8 : ∀ n, (toBytesLE n 8).length = 8 := fun n => toBytesLE_length n 8
  have happ : ∀ (pre rest vals : List Nat) (off : Nat), pre.length = off →
      setSlice (pre ++ rest) off vals =
        pre ++ vals ++ rest.drop vals.length := by
    intro pre rest vals off h
    subst h
    exact setSlice_append pre rest vals
  simp only [generate_entropy, specTimestampHashBuffer,
    show List.range 3 = [0, 1, 2] from rfl, List.foldl_cons, List.foldl_nil]
  norm_num
  set T := toBytesLE ts 8 with hT
  set b1 := toBytesLE (drawInt (vulnStep (ts ^^^ seq))) 8 with hb1
  set b2 := toBytesLE (drawInt (vulnStep (vulnStep (ts ^^^ seq)))) 8 with hb2
  set b3 := toBytesLE (drawInt (vulnStep (vulnStep (vulnStep (ts ^^^ seq))))) 8
    with hb3
  have lT : T.length = 8 := l8 ts
  have lb1 : b1.length = 8 := l8 _
  have lb2 : b2.length = 8 := l8 _
  have lb3 : b3.length = 8 := l8 _
  have e1 : setSlice (List.replicate 32 0) 0 T = T ++ List.replicate 24 0 := by
    rw [setSlice, lT]
    simp [List.drop_replicate]
  have e2 : setSlice (T ++ List.replicate 24 0) 8 b1 =
      T ++ b1 ++ List.replicate 16 0 := by
    rw [happ T _ b1 8 lT, lb1, List.drop_replicate]
  have e3 : setSlice (T ++ b1 ++ List.replicate 16 0) 16 b2 =
      T ++ b1 ++ b2 ++ List.replicate 8 0 := by
    have h := happ (T ++ b1) (List.replicate 16 0) b2 16 (by simp [lT, lb1])
    rw [lb2, List.drop_replicate] at h
    simpa [List.append_assoc] using h
  have e4 : setSlice (T ++ b1 ++ b2 ++ List.replicate 8 0) 24 b3 =
      T ++ b1 ++ b2 ++ b3 := by
    have h := happ (T ++ b1 ++ b2) (List.replicate 8 0) b3 24
      (by simp [lT, lb1, lb2])
    rw [lb3, List.drop_replicate] at h
    simpa [List.append_assoc] using h
  rw [e1, e2, e3, e4]
  simp [List.append_assoc]

/-- C4 — Timestamp-hash derivation: for every timestamp below `2^64` (the
domain of the 8-byte `to_bytes` call), every sequence index and every scaling
function, the derived private key is the 256-bit hash of the 32-byte buffer
whose first 8 bytes are the little-endian timestamp and whose remaining 24
bytes are three successive draws of the 48-bit LCG seeded by
`timestamp XOR sequenceIndex`, each widened to 8 bytes. -/
theorem claim_C4_timestamp_hash_derivation (drawInt : Nat → Nat)
    (ts seq : Nat) (hts : ts < 18446744073709551616) :
    derive_private_key drawInt ts seq =
      sha256_32 (specTimestampHashBuffer drawInt ts seq) := by
  rw [derive_private_key, generate_entropy_eq]

/-- Witness for C4 at the canonical test point
`(timestamp, sequence) = (1389781800000, 0)` with the exact-arithmetic
scaling. -/
theorem claim_C4_timestamp_hash_derivation_witness :
    1389781800000 < 18446744073709551616 ∧
    derive_private_key intTimes65536 1389781800000 0 =
      sha256_32 (specTimestampHashBuffer intTimes65536 1389781800000 0) :=
  ⟨by norm_num,
   claim_C4_timestamp_hash_derivation intTimes65536 1389781800000 0
     (by norm_num)⟩

/-- Entries of `toBytesLE`: position `i` holds byte `i` of the little-endian
rendering. -/
theorem toBytesLE_getD : ∀ (n len i : Nat), i < len →
    (toBytesLE n len).getD i 0 = n / 256 ^ i % 256
  | n, len + 1, 0, _ => by simp [toBytesLE]
  | n, len + 1, i + 1, h => by
    simp only [toBytesLE, List.getD_cons_succ]
    rw [toBytesLE_getD (n / 256) len i (by omega)]
    rw [Nat.div_div_eq_div_mul, ← pow_succ']

/-- `fromBytesLE` inverts `toBytesLE` up to the width of the rendering. -/
theorem fromBytesLE_toBytesLE : ∀ (n len : Nat),
    fromBytesLE (toBytesLE n len) = n % 256 ^ len
  | n, 0 => by simp [toBytesLE, fromBytesLE, Nat.mod_one]
  | n, len + 1 => by
    simp only [toBytesLE, fromBytesLE]
    rw [fromBytesLE_toBytesLE (n / 256) len]
    rw [pow_succ', Nat.mod_mul]

/-- The exact-arithmetic scaling never exceeds 65536 on the masked seed
domain. -/
theorem intTimes65536_le (s : Nat) (h : s ≤ MODULUS) :
    intTimes65536 s ≤ 65536 := by
  have hM : MODULUS = 281474976710655 := by decide
  rw [intTimes65536, hM]
  rw [hM] at h
  calc s * 65536 / 281474976710655 ≤ 281474976710655 * 65536 / 281474976710655 :=
        Nat.div_le_div_right (Nat.mul_le_mul_right _ h)
    _ = 65536 := Nat.mul_div_cancel_left _ (by norm_num)

/-- The masked seed stays below `MODULUS + 1`; in fact masking with `MODULUS`
bounds by `MODULUS`. -/
theorem vulnStep_le (s : Nat) : vulnStep s ≤ MODULUS :=
  Nat.and_le_right

/-- C10 — In the timestamp-hash derivation's 32-byte entropy buffer, each of
the three 8-byte blocks at offsets 8, 16 and 24 decodes (little-endian) to an
integer of at most 65536, and every byte at offset `8*k + j` for
`k ∈ {1,2,3}` and `3 ≤ j < 8` (that is, bytes 11-15, 19-23 and 27-31) is
zero — given any scaling function bounded by 65536 on the masked-seed domain,
as the float scaling of the source is. -/
theorem claim_C10_entropy_high_bytes_zero (drawInt : Nat → Nat)
    (hdraw : ∀ s, s ≤ MODULUS → drawInt s ≤ 65536) (ts seq : Nat) :
    ∀ k, k ∈ ([1, 2, 3] : List Nat) →
      fromBytesLE (((generate_entropy drawInt ts seq).drop (8 * k)).take 8) ≤
        65536 ∧
      ∀ j, 3 ≤ j → j < 8 →
        (generate_entropy drawInt ts seq).getD (8 * k + j) 0 = 0 := by
  intro k hk
  rw [generate_entropy_eq]
  simp only [specTimestampHashBuffer, List.append_assoc]
  set s1 := vulnStep (ts ^^^ seq) with hs1
  set s2 := vulnStep s1 with hs2
  set s3 := vulnStep s2 with hs3
  have hr1 : drawInt s1 ≤ 65536 := hdraw s1 (vulnStep_le _)
  have hr2 : drawInt s2 ≤ 65536 := hdraw s2 (vulnStep_le _)
  have hr3 : drawInt s3 ≤ 65536 := hdraw s3 (vulnStep_le _)
  have l8 : ∀ n, (toBytesLE n 8).length = 8 := fun n => toBytesLE_length n 8
  have hdrop : ∀ (A rest : List Nat), A.length = 8 →
      (A ++ rest).drop 8 = rest := by
    intro A rest hA
    have := @List.drop_append _ A rest 0
    rwa [hA, List.drop_zero, Nat.add_zero] at this
  have block : ∀ r, drawInt r ≤ 65536 →
      fromBytesLE (toBytesLE (drawInt r) 8) ≤ 65536 ∧
      ∀ j, 3 ≤ j → j < 8 → (toBytesLE (drawInt r) 8).getD j 0 = 0 := by
    intro r hr
    constructor
    · rw [fromBytesLE_toBytesLE]
      exact le_trans (Nat.mod_le _ _) hr
    · intro j h3 h8
      rw [toBytesLE_getD _ _ _ h8]
      have : drawInt r / 256 ^ j = 0 := by
        apply Nat.div_eq_of_lt
        calc drawInt r ≤ 65536 := hr
          _ < 256 ^ 3 := by norm_num
          _ ≤ 256 ^ j := Nat.pow_le_pow_right (by norm_num) h3
      simp [this]
  fin_cases hk
  · -- block 1, offset 8
    constructor
    · rw [show (8 : Nat) * 1 = 8 from rfl,
        hdrop _ _ (l8 ts), List.take_left' (l8 (drawInt s1))]
      exact (block s1 hr1).1
    · intro j h3 h8
      rw [show (8 : Nat) * 1 + j = 8 + j from rfl]
      rw [List.getD_append_right _ _ _ _ (by rw [l8]; omega)]
      rw [l8, Nat.add_sub_cancel_left]
      rw [List.getD_append _ _ _ _ (by rw [l8]; omega)]
      exact (block s1 hr1).2 j h3 h8
  · -- block 2, offset 16
    constructor
    · rw [show (8 : Nat) * 2 = 16 from rfl]
      rw [show (16 : Nat) = 8 + 8 from rfl, ← List.drop_drop]
      rw [hdrop _ _ (l8 ts), hdrop _ _ (l8 (drawInt s1)),
        List.take_left' (l8 (drawInt s2))]
      exact (block s2 hr2).1
    · intro j h3 h8
      rw [show (8 : Nat) * 2 + j = 8 + (8 + j) from (by ring)]
      rw [List.getD_append_right _ _ _ _ (by rw [l8]; omega)]
      rw [l8, Nat.add_sub_cancel_left]
      rw [List.getD_append_right _ _ _ _ (by rw [l8]; omega)]
      rw [l8, Nat.add_sub_cancel_left]
      rw [List.getD_append _ _ _ _ (by rw [l8]; omega)]
      exact (block s2 hr2).2 j h3 h8
  · -- block 3, offset 24
    constructor
    · rw [show (8 : Nat) * 3 = 24 from rfl]
      rw [show (24 : Nat) = 8 + (8 + 8) from rfl, ← List.drop_drop,
        ← List.drop_drop]
      rw [hdrop _ _ (l8 ts), hdrop _ _ (l8 (drawInt s1)),
        hdrop _ _ (l8 (drawInt s2))]
      rw [List.take_of_length_le (by simp [l8])]
      exact (block s3 hr3).1
    · intro j h3 h8
      rw [show (8 : Nat) * 3 + j = 8 + (8 + (8 + j)) from (by ring)]
      rw [List.getD_append_right _ _ _ _ (by rw [l8]; omega)]
      rw [l8, Nat.add_sub_cancel_left]
      rw [List.getD_append_right _ _ _ _ (by rw [l8]; omega)]
      rw [l8, Nat.add_sub_cancel_left]
      rw [List.getD_append_right _ _ _ _ (by rw [l8]; omega)]
      rw [l8, Nat.add_sub_cancel_left]
      exact (block s3 hr3).2 j h3 h8

/-- Witness for C10 at `(timestamp, sequence) = (1389781800000, 0)` with the
exact-arithmetic scaling: the first block decodes to at most 65536 and byte 11
of the buffer is zero. -/
theorem claim_C10_entropy_high_bytes_zero_witness :
    fromBytesLE (((generate_entropy intTimes65536 1389781800000 0).drop 8).take
      8) ≤ 65536 ∧
    (generate_entropy intTimes65536 1389781800000 0).getD 11 0 = 0 := by
  have h := claim_C10_entropy_high_bytes_zero intTimes65536
    (fun s hs => intTimes65536_le s hs) 1389781800000 0 1 (by decide)
  exact ⟨by simpa using h.1, by simpa using h.2 3 (by decide) (by decide)⟩

/-- Characterisation of the replay loop: starting from failure counter
`f ≤ 5`, the loop stops early exactly when `f` plus the number of mismatching
vectors reaches 6, and the final failure counter is that sum capped at 6. -/
theorem mainLoop_spec : ∀ (vs : List PVec) (p f : Nat), f ≤ 5 →
    ((mainLoop p f vs).stoppedEarly = true ↔ 6 ≤ f + vs.countP isMismatch) ∧
    (mainLoop p f vs).failed = min 6 (f + vs.countP isMismatch) := by
  intro vs
  induction vs with
  | nil =>
    intro p f hf
    simp [mainLoop]
    omega
  | cons v rest ih =>
    intro p f hf
    rw [List.countP_cons]
    by_cases hv : v.vulnerability = "randstorm"
    · have hcond : ¬(v.vulnerability ≠ "randstorm") := by simp [hv]
      cases hD : derive_privkey_python v.timestamp_ms v.engine with
      | none =>
        have hm : (if isMismatch v then 1 else 0) = 0 := by
          simp [isMismatch, hD]
        rw [hm]
        rw [show mainLoop p f (v :: rest) = mainLoop p f rest from by
          rw [mainLoop, if_neg hcond, hD]]
        simpa using ih p f hf
      | some k =>
        by_cases hx : hexlify k = v.expected_privkey_hex
        · have hm : (if isMismatch v then 1 else 0) = 0 := by
            simp [isMismatch, hD, hx]
          rw [hm]
          rw [show mainLoop p f (v :: rest) = mainLoop (p + 1) f rest from by
            rw [mainLoop, if_neg hcond, hD]
            simp [hx]]
          simpa using ih (p + 1) f hf
        · have hm : (if isMismatch v then 1 else 0) = 1 := by
            simp [isMismatch, hv, hD, hx]
          rw [hm]
          by_cases hff : f + 1 > 5
          · rw [show mainLoop p f (v :: rest) =
                { passed := p, failed := f + 1, stoppedEarly := true } from by
              rw [mainLoop, if_neg hcond, hD]
              simp [hx, hff]]
            constructor
            · simp
              omega
            · simp
              omega
          · rw [show mainLoop p f (v :: rest) = mainLoop p (f + 1) rest from by
              rw [mainLoop, if_neg hcond, hD]
              simp [hx, hff]]
            have h := ih p (f + 1) (by omega)
            constructor
            · rw [h.1]
              omega
            · rw [h.2]
              congr 1
              omega
    · have hm : (if isMismatch v then 1 else 0) = 0 := by
        simp [isMismatch, hv]
      rw [hm]
      rw [show mainLoop p f (v :: rest) = mainLoop p f rest from by
        rw [mainLoop, if_pos (by simp [hv])]]
      simpa using ih p f hf

/-- `hexlify` renders two characters per byte. -/
theorem hexlify_length (bs : List Nat) :
    (hexlify bs).data.length = 2 * bs.length := by
  induction bs with
  | nil => rfl
  | cons b tl ih =>
    show (List.flatten ((b :: tl).map
      (fun b => [hexDigit (b / 16), hexDigit (b % 16)]))).length = _
    rw [List.map_cons, List.flatten_cons, List.length_append]
    have ih2 : (List.flatten (tl.map
        (fun b => [hexDigit (b / 16), hexDigit (b % 16)]))).length =
        2 * tl.length := ih
    rw [ih2]
    simp
    omega

/-- C7 counterexample — the claim's stopping rule is not the code's: on
eleven vectors alternating mismatch and pass (never two consecutive
mismatches, so the claimed consecutive-counter rule, modelled by
`consecutiveStop`, never stops), the code's loop does stop early, and the run
exits non-zero. -/
theorem claim_C7_counterexample :
    (mainLoop 0 0 alternatingVecs).stoppedEarly = true ∧
    consecutiveStop 0 alternatingVecs = false ∧
    mainExitNonZero alternatingVecs = true := by
  have hk : derive_privkey_python 0 "v8" =
      some (keystreamFold (ARC4.init (whitenLoop 0
        (fillPool V8Mwc1616.next_u16 (V8Mwc1616.init 0) 256))) 32) := rfl
  set K0 := keystreamFold (ARC4.init (whitenLoop 0
    (fillPool V8Mwc1616.next_u16 (V8Mwc1616.init 0) 256))) 32 with hK0
  have hlen : K0.length = 32 := by
    rw [hK0, keystreamFold_eq]
    exact arc4Keystream_length _ _
  have hne : ¬(hexlify K0 = "") := by
    intro h
    have h2 := hexlify_length K0
    rw [hlen, h] at h2
    simp at h2
  have hbad : isMismatch badVec = true := by
    have hd : derive_privkey_python badVec.timestamp_ms badVec.engine =
        some K0 := hk
    simp only [isMismatch, hd]
    simp [badVec, hne]
  have hgood : isMismatch goodVec = false := by
    have hd : derive_privkey_python goodVec.timestamp_ms goodVec.engine =
        some K0 := hk
    have hexp : goodVec.expected_privkey_hex = hexlify K0 := by
      show hexlify ((derive_privkey_python 0 "v8").getD []) = hexlify K0
      rw [hk]
      rfl
    simp only [isMismatch, hd]
    simp [hexp]
  have hcount : alternatingVecs.countP isMismatch = 6 := by
    simp [alternatingVecs, List.countP_cons, hbad, hgood]
  have hspec := mainLoop_spec alternatingVecs 0 0 (by omega)
  have h6 : 6 ≤ 0 + alternatingVecs.countP isMismatch := by
    rw [hcount]
  have hfail : (mainLoop 0 0 alternatingVecs).failed = 6 := by
    rw [hspec.2, hcount]
    decide
  have stepBad : ∀ (c : Nat) (rest : List PVec), c + 1 ≤ 5 →
      consecutiveStop c (badVec :: rest) = consecutiveStop (c + 1) rest := by
    intro c rest hc
    have hd : derive_privkey_python badVec.timestamp_ms badVec.engine =
        some K0 := hk
    rw [consecutiveStop, if_neg (by simp [badVec]), hd]
    show (if hexlify K0 = badVec.expected_privkey_hex then _
      else if c + 1 > 5 then _ else _) = _
    rw [show badVec.expected_privkey_hex = "" from rfl, if_neg hne,
      if_neg (by omega)]
  have stepGood : ∀ (c : Nat) (rest : List PVec),
      consecutiveStop c (goodVec :: rest) = consecutiveStop 0 rest := by
    intro c rest
    have hd : derive_privkey_python goodVec.timestamp_ms goodVec.engine =
        some K0 := hk
    have hexp : hexlify K0 = goodVec.expected_privkey_hex := by
      show hexlify K0 = hexlify ((derive_privkey_python 0 "v8").getD [])
      rw [hk]
      rfl
    rw [consecutiveStop, if_neg (by simp [goodVec]), hd]
    show (if hexlify K0 = goodVec.expected_privkey_hex then _
      else if c + 1 > 5 then _ else _) = _
    rw [if_pos hexp]
  refine ⟨hspec.1.mpr h6, ?_, ?_⟩
  · rw [alternatingVecs]
    rw [stepBad 0 _ (by omega), stepGood, stepBad 0 _ (by omega), stepGood,
      stepBad 0 _ (by omega), stepGood, stepBad 0 _ (by omega), stepGood,
      stepBad 0 _ (by omega), stepGood, stepBad 0 _ (by omega)]
    rfl
  · rw [mainExitNonZero, hfail]
    rfl

/-- C7 (amended) — The replay loop keeps cumulative pass/fail counters and
stops early exactly when the total count of mismatched vectors (not reset by
passing vectors) exceeds 5, i.e. reaches 6; the final failure counter is the
total mismatch count capped at 6; and the run ends with a non-zero exit
status exactly when at least one vector mismatched.  If the total mismatch
count never exceeds 5 the whole list is processed. -/
theorem claim_C7_failure_threshold (vs : List PVec) :
    ((mainLoop 0 0 vs).stoppedEarly = true ↔ 6 ≤ vs.countP isMismatch) ∧
    (mainLoop 0 0 vs).failed = min 6 (vs.countP isMismatch) ∧
    (mainExitNonZero vs = true ↔ vs.countP isMismatch ≠ 0) := by
  have h := mainLoop_spec vs 0 0 (by omega)
  refine ⟨by simpa using h.1, by simpa using h.2, ?_⟩
  have h2 : (mainLoop 0 0 vs).failed = min 6 (vs.countP isMismatch) := by
    simpa using h.2
  rw [mainExitNonZero, h2]
  simp

/-- C8 — Bulk CSV membership checking: the intended behaviour (skip a
malformed row, continue the batch) diverges from the code.  The handler
clause `except e:` of `check_address_csv` names the undefined variable `e`,
so a malformed row (here a one-field row) raises `NameError` and aborts the
batch instead of being skipped; the specification-intended loop processes the
same batch to completion.  Resuming by skipping caller-supplied leading lines
does work: with `skip = 2` the loop never touches the malformed second row
and completes. -/
theorem claim_C8_csv_malformed_row :
    check_address_csv (fun _ => false) c8Rows 0 0 0 =
      Except.error "NameError" ∧
    specCheckAddressCsv (fun _ => false) c8Rows 0 0 0 = (2, 0) ∧
    check_address_csv (fun _ => false) c8Rows 0 0 2 = Except.ok (3, 0) := by
  refine ⟨rfl, rfl, rfl⟩

/-- Persist-then-load is the identity on the modelled filter. -/
theorem loadBloom_persistBloom (f : BloomFilter) :
    loadBloom (persistBloom f) = f := by
  cases f with
  | mk bits =>
    simp only [persistBloom, loadBloom, List.map_map, BloomFilter.mk.injEq]
    induction bits with
    | nil => rfl
    | cons b tl ih =>
      cases b <;> simpa using ih

/-- A bit just set to true reads true. -/
theorem getD_set_true : ∀ (bs : List Bool) (p : Nat), p < bs.length →
    (bs.set p true).getD p false = true
  | _ :: _, 0, _ => rfl
  | _ :: tl, p + 1, h => by
    show (tl.set p true).getD p false = true
    exact getD_set_true tl p (by simpa using h)

/-- Setting any bit to true never clears a true bit. -/
theorem getD_set_true_mono : ∀ (bs : List Bool) (p q : Nat),
    bs.getD p false = true → (bs.set q true).getD p false = true
  | [], _, q, h => by
    cases q <;> exact h
  | _ :: _, 0, 0, _ => rfl
  | _ :: _, 0, _ + 1, h => h
  | _ :: _, _ + 1, 0, h => h
  | _ :: tl, p + 1, q + 1, h => getD_set_true_mono tl p q h

/-- Folding set-to-true over any position list preserves a true bit. -/
theorem fold_set_true_mono : ∀ (ps : List Nat) (bs : List Bool) (p : Nat),
    bs.getD p false = true →
    (ps.foldl (fun bs q => bs.set q true) bs).getD p false = true
  | [], _, _, h => h
  | q :: qs, bs, p, h =>
    fold_set_true_mono qs _ p (getD_set_true_mono bs p q h)

/-- Folding set-to-true over a position list sets every in-range listed
position. -/
theorem fold_set_true_self : ∀ (ps : List Nat) (bs : List Bool) (p : Nat),
    p ∈ ps → p < bs.length →
    (ps.foldl (fun bs q => bs.set q true) bs).getD p false = true := by
  intro ps
  induction ps with
  | nil =>
    intro bs p h
    simp at h
  | cons q qs ih =>
    intro bs p hmem hlen
    rcases List.mem_cons.mp hmem with rfl | hmem2
    · exact fold_set_true_mono qs _ p (getD_set_true bs p hlen)
    · exact ih (bs.set q true) p hmem2 (by simpa using hlen)

/-- Folding set-to-true preserves the bit-array length. -/
theorem fold_set_length : ∀ (ps : List Nat) (bs : List Bool),
    (ps.foldl (fun bs q => bs.set q true) bs).length = bs.length
  | [], _ => rfl
  | q :: qs, bs => by
    rw [List.foldl_cons, fold_set_length qs, List.length_set]

/-- `bloomAdd` as a fold of set-to-true over the hashed positions. -/
theorem bloomAdd_bits (hashes : List (List Nat → Nat)) (m : Nat)
    (f : BloomFilter) (item : List Nat) :
    (bloomAdd hashes m f item).bits =
      (hashes.map (fun h => h item % m)).foldl
        (fun bs q => bs.set q true) f.bits := by
  rw [bloomAdd, List.foldl_map]

/-- `bloomAdd` preserves the bit-array length. -/
theorem bloomAdd_length (hashes : List (List Nat → Nat)) (m : Nat)
    (f : BloomFilter) (item : List Nat) :
    (bloomAdd hashes m f item).bits.length = f.bits.length := by
  rw [bloomAdd_bits]
  exact fold_set_length _ _

/-- Adding an item makes its own query true (no false negative on a single
insert). -/
theorem bloomQuery_add_self (hashes : List (List Nat → Nat)) (m : Nat)
    (f : BloomFilter) (item : List Nat) (hm : 0 < m)
    (hl : f.bits.length = m) :
    bloomQuery hashes m (bloomAdd hashes m f item) item = true := by
  rw [bloomQuery, List.all_eq_true]
  intro h hh
  rw [bloomAdd_bits]
  apply fold_set_true_self
  · exact List.mem_map_of_mem _ hh
  · rw [hl]
    exact Nat.mod_lt _ hm

/-- Adding further items preserves a positive query. -/
theorem bloomQuery_add_mono (hashes : List (List Nat → Nat)) (m : Nat)
    (f : BloomFilter) (item x : List Nat)
    (h : bloomQuery hashes m f x = true) :
    bloomQuery hashes m (bloomAdd hashes m f item) x = true := by
  rw [bloomQuery, List.all_eq_true] at h ⊢
  intro g hg
  rw [bloomAdd_bits]
  exact fold_set_true_mono _ _ _ (h g hg)

/-- A positive query survives inserting a whole line list. -/
theorem bloom_fold_preserves (hashes : List (List Nat → Nat)) (m : Nat) :
    ∀ (ls : List String) (f : BloomFilter) (x : List Nat),
    bloomQuery hashes m f x = true →
    bloomQuery hashes m
      (ls.foldl (fun f l => bloomAdd hashes m f (pyEncode (pyStrip l))) f)
      x = true
  | [], _, _, h => h
  | _ :: ls, f, x, h =>
    bloom_fold_preserves hashes m ls _ x (bloomQuery_add_mono _ _ _ _ _ h)

/-- Every line inserted by the construction fold queries true afterwards. -/
theorem bloom_fold_query (hashes : List (List Nat → Nat)) (m : Nat)
    (hm : 0 < m) :
    ∀ (lines : List String) (f : BloomFilter), f.bits.length = m →
    ∀ line ∈ lines,
      bloomQuery hashes m
        (lines.foldl
          (fun f l => bloomAdd hashes m f (pyEncode (pyStrip l))) f)
        (pyEncode (pyStrip line)) = true := by
  intro lines
  induction lines with
  | nil =>
    intro f _ line h
    simp at h
  | cons l ls ih =>
    intro f hf line hmem
    rw [List.foldl_cons]
    rcases List.mem_cons.mp hmem with rfl | hmem2
    · exact bloom_fold_preserves hashes m ls _ _
        (bloomQuery_add_self hashes m f _ hm hf)
    · exact ih (bloomAdd hashes m f (pyEncode (pyStrip l)))
        (by rw [bloomAdd_length, hf]) line hmem2

/-- C2 — No false negatives through persistence: for every hash family, every
positive bit count, and every address line inserted during
`construct_bloom_filter` (stripped and byte-encoded), querying the
persisted-and-reloaded filter through `check_address` with that stripped
address returns true. -/
theorem claim_C2_no_false_negatives (hashes : List (List Nat → Nat))
    (m : Nat) (lines : List String) (line : String) (hm : 0 < m)
    (hline : line ∈ lines) :
    check_address hashes m (construct_bloom_filter hashes m lines)
      (pyStrip line) = true := by
  rw [check_address, construct_bloom_filter, loadBloom_persistBloom]
  exact bloom_fold_query hashes m hm lines { bits := List.replicate m false }
    (by simp) line hline

/-- Witness for C2: a two-hash family over 8 bits, a two-line corpus, and the
first (whitespace-padded) line. -/
theorem claim_C2_no_false_negatives_witness :
    check_address
      [fun bs => bs.foldl (fun a b => a + b) 0, fun bs => bs.length] 8
      (construct_bloom_filter
        [fun bs => bs.foldl (fun a b => a + b) 0, fun bs => bs.length] 8
        ["  1addr ", "1xyz"])
      (pyStrip "  1addr ") = true :=
  claim_C2_no_false_negatives
    [fun bs => bs.foldl (fun a b => a + b) 0, fun bs => bs.length] 8
    ["  1addr ", "1xyz"] "  1addr " (by omega) (by simp)


/-- C9 — Kernel-generation determinism: the generator is a pure function of
the RoundSpec table, reading no other state, so two invocations on the same
table (and, at round level, on the same group) produce byte-identical output
text; Lean string equality is equality of the character sequence and hence of
its UTF-8 byte rendering. -/
theorem claim_C9_kernel_determinism (rs1 rs2 : List RoundGroup)
    (g1 g2 : RoundGroup) (hrs : rs1 = rs2) (hg : g1 = g2) :
    kernelSourceText rs1 = kernelSourceText rs2 ∧
    generate_round g1 = generate_round g2 := by
  subst hrs
  subst hg
  exact ⟨rfl, rfl⟩

/-- Witness for C9 at the repository's `rounds` table and its first group. -/
theorem claim_C9_kernel_determinism_witness :
    kernelSourceText rounds = kernelSourceText rounds ∧
    generate_round (rounds.headD
      { name := "", fLeft := "", kLeft := "", fRight := "", kRight := "",
        data := [] }) =
      generate_round (rounds.headD
        { name := "", fLeft := "", kLeft := "", fRight := "", kRight := "",
          data := [] }) :=
  claim_C9_kernel_determinism rounds rounds _ _ rfl rfl

end EntropyLab
